import Mathlib

/-!
Verification of the viewport/line reconciliation core of a CodeMirror
test-helper library (`src/viewport.ts`, `src/cm-editor.ts`).

The TypeScript functions are shallowly embedded as pure Lean functions:
screen coordinates become rationals (`ℚ`), DOM element lists become Lean
lists read in document order, the JavaScript `Map<number, number>` becomes
an insertion-ordered association list, and fallible operations return
`Except String`.
-/

namespace CMHelper

/-- A screen-space bounding box as returned by `getBoundingClientRect`:
`top` and `height` are read directly, `bottom` is `top + height`. -/
structure Rect where
  top : ℚ
  height : ℚ
deriving DecidableEq

/-- Bottom edge of a bounding box (`rect.bottom`). -/
def Rect.bottom (r : Rect) : ℚ := r.top + r.height

/-- A rendered gutter element (`.cm-lineNumbers .cm-gutterElement`):
its bounding box and its `textContent`, embedded as the sequence of
characters of the DOM text node. -/
structure GutterEl where
  rect : Rect
  textContent : List Char
deriving DecidableEq

/-- The whitespace characters removed by JavaScript `String.trim`
(space, tab, newline, carriage return, vertical tab, form feed). -/
def jsWhitespace (c : Char) : Bool :=
  c == ' ' || c == '\t' || c == '\n' || c == '\r' || c == '\x0b' || c == '\x0c'

/-- JavaScript `text.trim()` on a character sequence: drop whitespace
from both ends. -/
def jsTrim (cs : List Char) : List Char :=
  ((cs.dropWhile jsWhitespace).reverse.dropWhile jsWhitespace).reverse

/-- The `text && /^\d+$/.test(text)` guard followed by
`parseInt(text, 10)`: a nonempty all-digit string parses to its decimal
value, anything else is rejected. -/
def parseAllDigits (cs : List Char) : Option Nat :=
  if cs ≠ [] ∧ cs.all Char.isDigit then
    some (cs.foldl (fun n c => n * 10 + (c.toNat - '0'.toNat)) 0)
  else none

/-- A closed interval of 1-based document line numbers
(source type `{ first: number; last: number }`). -/
structure LineRange where
  first : Nat
  last : Nat
deriving DecidableEq

/-- Result type of `linesInViewport`
(source type `ViewportLineInfo = { fullyVisible, partiallyVisible }`). -/
structure ViewportLineInfo where
  fullyVisible : List LineRange
  partiallyVisible : List LineRange
deriving DecidableEq

/-- The DOM state that `getLinesInViewport` / `isLineRendered` /
`isLineVisible` read: the optional `.cm-scroller` box, the `.cm-line`
boxes in document order, and the gutter elements in document order. -/
structure ViewEnv where
  scroller : Option Rect
  lines : List Rect
  gutters : List GutterEl
deriving DecidableEq

/-- JavaScript `Math.round`: round half toward positive infinity,
i.e. `⌊x + 1/2⌋`. -/
def jsRound (q : ℚ) : Int := ⌊q + Rat.divInt 1 2⌋

/-- JavaScript `Map.set` on an insertion-ordered association list:
an existing key keeps its position and gets the new value, a fresh key
is appended. -/
def mapSet (m : List (Int × Nat)) (k : Int) (v : Nat) : List (Int × Nat) :=
  if m.any (fun p => p.1 = k) then
    m.map (fun p => if p.1 = k then (k, v) else p)
  else
    m ++ [(k, v)]

/-- The gutter-map construction loop of `getLinesInViewport`
(`viewport.ts:22-37`, identically `cm-editor.ts`): skip placeholder
elements (height 0 or top `< -1000`), trim the text, require it to be
nonempty and all digits (`/^\d+$/`), and record
`Math.round(rect.top) → lineNumber` with `Map.set` semantics. -/
def buildGutterMap (gs : List GutterEl) : List (Int × Nat) :=
  gs.foldl
    (fun acc g =>
      if g.rect.height = (0 : ℚ) ∨ g.rect.top < (-1000 : ℚ) then acc
      else
        match parseAllDigits (jsTrim g.textContent) with
        | some n => mapSet acc (jsRound g.rect.top) n
        | none => acc)
    []

/-- The inner lookup loop of `getLinesInViewport` (`viewport.ts:48-54`):
scan the map entries in insertion order and return the line number of
the first entry whose key is within 5 pixels of the rounded line top. -/
def lookupLineNum (m : List (Int × Nat)) (lineTop : Int) : Option Nat :=
  (m.find? (fun p => (lineTop - p.1).natAbs < 5)).map (fun p => p.2)

/-- The classification loop of `getLinesInViewport` (`viewport.ts:43-72`):
for each content line in document order, resolve its line number through
the gutter map (skipping it when unresolved), then append it to the
fully-visible list when `top ≥ scrollerTop ∧ bottom ≤ scrollerBottom`
and to the partially-visible list when
`bottom > scrollerTop ∧ top < scrollerBottom`. -/
def classifyLines (sc : Rect) (m : List (Int × Nat)) :
    List Rect → List Nat × List Nat
  | [] => ([], [])
  | l :: ls =>
    let rest := classifyLines sc m ls
    match lookupLineNum m (jsRound l.top) with
    | none => rest
    | some n =>
      ((if sc.top ≤ l.top ∧ l.bottom ≤ sc.bottom then n :: rest.1 else rest.1),
       (if sc.top < l.bottom ∧ l.top < sc.bottom then n :: rest.2 else rest.2))

/-- Insert a number into a nondecreasing list, keeping it nondecreasing. -/
def insertSorted (a : Nat) : List Nat → List Nat
  | [] => [a]
  | b :: bs => if a ≤ b then a :: b :: bs else b :: insertSorted a bs

/-- The `Array.sort((a, b) => a - b)` call: sort numbers ascending.
Any correct sort of a list of naturals produces the same output list,
so insertion sort is extensionally the JavaScript sort. -/
def sortNats (l : List Nat) : List Nat := l.foldr insertSorted []

/-- The loop body of the `toRanges` helper (`viewport.ts:86-98`) with the
current range `[rangeStart, rangeEnd]` pending: extend the range when the
next number is exactly `rangeEnd + 1`, otherwise emit the pending range
and start a new one. -/
def toRangesGo (rangeStart rangeEnd : Nat) : List Nat → List LineRange
  | [] => [⟨rangeStart, rangeEnd⟩]
  | y :: ys =>
    if y = rangeEnd + 1 then toRangesGo rangeStart y ys
    else ⟨rangeStart, rangeEnd⟩ :: toRangesGo y y ys

/-- The `toRanges` helper of `getLinesInViewport` (`viewport.ts:79-101`):
compress a list of line numbers into closed ranges, starting a new range
at every gap. -/
def toRanges : List Nat → List LineRange
  | [] => []
  | x :: xs => toRangesGo x x xs

/-- Model of `getLinesInViewport` (`viewport.ts:7-108`, duplicated as
`CMEditor.linesInViewport` in `cm-editor.ts`): with no `.cm-scroller`
return empty range lists; otherwise build the gutter map, classify each
content line, sort both number lists and compress them into ranges. -/
def getLinesInViewport (env : ViewEnv) : ViewportLineInfo :=
  match env.scroller with
  | none => ⟨[], []⟩
  | some sc =>
    let m := buildGutterMap env.gutters
    let cls := classifyLines sc m env.lines
    ⟨toRanges (sortNats cls.1), toRanges (sortNats cls.2)⟩

/-- The `position` option of `scrollToLine`
(`'top' | 'center' | 'bottom' | number`). -/
inductive PositionOption where
  | top
  | center
  | bottom
  | frac (q : ℚ)
deriving DecidableEq

/-- The position-to-fraction conversion of `scrollToLine`
(`cm-editor.ts:748-757`): `'top' → 0`, `'center' → 0.5`, `'bottom' → 1`,
a number passes through unchanged. -/
def offsetFactor : PositionOption → ℚ
  | .top => 0
  | .center => Rat.divInt 1 2
  | .bottom => 1
  | .frac q => q

/-- Absolute screen coordinates returned by the host editor's
`coordsAtPos` for a document offset. -/
structure Coords where
  top : ℚ
  bottom : ℚ
deriving DecidableEq

/-- The state of the `.cm-scroller` element that `scrollToLine` reads and
writes: its `scrollTop`, the top of its bounding box, its `clientHeight`,
and the bounding box of its first `.cm-line` child (if any). -/
structure ScrollerState where
  scrollTop : ℚ
  rectTop : ℚ
  clientHeight : ℚ
  firstLine : Option Rect
deriving DecidableEq

/-- The editor state that `scrollToLine` reads: the optional precise
coordinate resolver (present exactly when `cmView?.state?.doc` and
`cmView.coordsAtPos` are both available) and the optional scroller.
Applying the resolver to a line number models
`cmView.state.doc.line(targetLine)` followed by
`cmView.coordsAtPos(line.from)`: `.error ()` is a raised exception
(caught by the source's `try`/`catch`), `.ok none` is a `null`
coordinates result, `.ok (some c)` is a successful precise lookup. -/
structure ScrollEnv where
  resolver : Option (Int → Except Unit (Option Coords))
  scroller : Option ScrollerState

/-- The fallback estimation path of `scrollToLine`
(`cm-editor.ts:789-801`): with no rendered `.cm-line` do nothing,
otherwise set
`scrollTop = max(0, (targetLine - 1) * lineHeight - clientHeight * f + (f == 1 ? lineHeight : 0))`
with `lineHeight` the first content line's box height. -/
def fallbackScroll (env : ScrollEnv) (s : ScrollerState) (targetLine : Int)
    (f : ℚ) : ScrollEnv :=
  match s.firstLine with
  | none => env
  | some fl =>
    let lineHeight := fl.height
    let viewportOffset := s.clientHeight * f
    let lineOffset := if f = 1 then lineHeight else 0
    { env with
      scroller := some { s with
        scrollTop :=
          max 0 (((targetLine : ℚ) - 1) * lineHeight - viewportOffset + lineOffset) } }

/-- The body of the `view.evaluate` call of `scrollToLine`
(`cm-editor.ts:760-801`): no scroller means no effect; with the precise
resolver available and returning coordinates, adjust
`scrollTop += coords.top - scrollerRect.top - clientHeight * f + (f == 1 ? lineHeight : 0)`
where `lineHeight = coords.bottom - coords.top`; when the resolver is
absent, raises, or returns `null`, fall through to `fallbackScroll`. -/
def applyScrollToLine (env : ScrollEnv) (targetLine : Int) (f : ℚ) : ScrollEnv :=
  match env.scroller with
  | none => env
  | some s =>
    match env.resolver with
    | some resolve =>
      match resolve targetLine with
      | .ok (some coords) =>
        let lineHeight := coords.bottom - coords.top
        let viewportOffset := s.clientHeight * f
        let lineOffset := if f = 1 then lineHeight else 0
        { env with
          scroller := some { s with
            scrollTop :=
              s.scrollTop + (coords.top - s.rectTop - viewportOffset + lineOffset) } }
      | .ok none => fallbackScroll env s targetLine f
      | .error _ => fallbackScroll env s targetLine f
    | none => fallbackScroll env s targetLine f

/-- The validation error text of `scrollToLine`, `scrollToLineAndLocate`,
`isLineRendered` and `isLineVisible`. -/
def lineNumErrMsg (n : Int) : String :=
  "Line number must be >= 1, got " ++ toString n

/-- Model of `CMEditor.scrollToLine` (`cm-editor.ts:738-806`): reject
`lineNumber < 1` synchronously, default the position option to `'top'`,
convert it to a fraction and apply the scroll. The optional
`waitForScrollIdle` call after the scroll does not change the computed
`scrollTop` and is modelled separately. -/
def scrollToLine (env : ScrollEnv) (lineNumber : Int)
    (position : Option PositionOption) : Except String ScrollEnv :=
  if lineNumber < 1 then .error (lineNumErrMsg lineNumber)
  else .ok (applyScrollToLine env lineNumber (offsetFactor (position.getD .top)))

/-- Which way the promise of `waitForScrollIdle` resolved: three
consecutive stable animation-frame samples, or the `setTimeout` firing
first. -/
inductive IdleOutcome where
  | stable
  | timedOut
deriving DecidableEq

/-- The animation-frame loop of `waitForScrollIdle`
(`cm-editor.ts:670-695`): `samples i` is the `(scrollTop, scrollLeft)`
pair read at the i-th read (read 0 initialises `lastTop`/`lastLeft`),
and `budget` is the number of animation frames that fire before the
`setTimeout(resolve, timeoutMs)` timer; when the budget runs out the
timer resolves the promise. -/
def idleLoop (samples : Nat → ℚ × ℚ) :
    (last : ℚ × ℚ) → (stableFrames : Nat) → (frame : Nat) → (budget : Nat) →
    IdleOutcome
  | _, _, _, 0 => .timedOut
  | last, stableFrames, frame, budget + 1 =>
    let cur := samples frame
    if cur = last then
      if stableFrames + 1 ≥ 3 then .stable
      else idleLoop samples cur (stableFrames + 1) (frame + 1) budget
    else idleLoop samples cur 0 (frame + 1) budget

/-- Model of `CMEditor.waitForScrollIdle` (`cm-editor.ts:670-695`): the promise is
resolved either by three consecutive stable samples or by the timer —
both paths call `resolve`, so the operation always completes
successfully; there is no rejection path. -/
def waitForScrollIdle (samples : Nat → ℚ × ℚ) (frameBudget : Nat) :
    Except String IdleOutcome :=
  .ok (idleLoop samples (samples 0) 0 1 frameBudget)

/-- The line-search step of `scrollToLineAndLocate`
(`cm-editor.ts:297-331`): find the first gutter element whose raw
`textContent` equals `String(targetLineNum)` (no trimming, no
placeholder filtering), then the index of the first content line whose
top is within 5 pixels of that gutter element's top; `-1` when either
search fails. -/
def locateLineIndex (gutters : List GutterEl) (lines : List Rect)
    (targetLineNum : Int) : Int :=
  match gutters.find? (fun g => g.textContent = (toString targetLineNum).data) with
  | none => -1
  | some g =>
    match lines.findIdx? (fun lr => |lr.top - g.rect.top| < 5) with
    | none => -1
    | some i => i

/-- Modelled from the spec: the missing piece here is Playwright's
`locator.waitFor({ state: 'visible', timeout })`, whose documented
behaviour is to resolve once the element is visible and to reject with a
timeout error once the timeout elapses first; the message names the
awaited locator, which embeds the target line number. -/
def gutterWaitTimeoutMsg (n : Int) : String :=
  "Timeout waiting for gutter element of line " ++ toString n

/-- Modelled from the spec: the timeout rejection of the final
`locator.waitFor({ state: 'visible', timeout })` on the located content
line (Playwright behaviour, not code under `src/`). -/
def lineWaitTimeoutMsg (n : Int) : String :=
  "Timeout waiting for line element of line " ++ toString n

/-- The not-found error text of `scrollToLineAndLocate`
(`cm-editor.ts:333-335`). -/
def lineNotFoundMsg (n : Int) : String :=
  "Line " ++ toString n ++ " not found after scrolling"

/-- The state read by one `scrollToLineAndLocate` call: the scroll
state, whether the gutter-appearance wait finishes before its timeout,
the gutter and content-line elements as laid out after the scroll, and
whether the final element-visibility wait finishes before its timeout. -/
structure LocateEnv where
  scrollEnv : ScrollEnv
  gutterWaitSucceeds : Bool
  gutters : List GutterEl
  lines : List Rect
  lineWaitSucceeds : Bool

/-- Model of `CMEditor.scrollToLineAndLocate` (`cm-editor.ts:275-341`): reject
`lineNumber < 1` synchronously; scroll to the line; wait for the gutter
element with the target number to be visible (timeout ⇒ error); search
for the content line aligned with that gutter element; `-1` ⇒ the
"not found after scrolling" error; finally wait for the located line to
be visible (timeout ⇒ error) and return its index among the `.cm-line`
elements. -/
def scrollToLineAndLocate (env : LocateEnv) (lineNumber : Int)
    (position : Option PositionOption) : Except String Nat :=
  if lineNumber < 1 then .error (lineNumErrMsg lineNumber)
  else
    match scrollToLine env.scrollEnv lineNumber position with
    | .error e => .error e
    | .ok _ =>
      if env.gutterWaitSucceeds = false then .error (gutterWaitTimeoutMsg lineNumber)
      else
        let idx := locateLineIndex env.gutters env.lines lineNumber
        if idx = -1 then .error (lineNotFoundMsg lineNumber)
        else if env.lineWaitSucceeds = false then .error (lineWaitTimeoutMsg lineNumber)
        else .ok idx.toNat

/-- Model of `isLineRendered` (`viewport.ts:113-136`, identically
`CMEditor.isLineRendered`): reject `lineNumber < 1` synchronously, then
report whether some non-placeholder gutter element's trimmed text equals
`String(lineNumber)`. -/
def isLineRendered (gutters : List GutterEl) (lineNumber : Int) :
    Except String Bool :=
  if lineNumber < 1 then .error (lineNumErrMsg lineNumber)
  else
    .ok (gutters.any (fun g =>
      !(decide (g.rect.height = (0 : ℚ) ∨ g.rect.top < (-1000 : ℚ))) &&
      (jsTrim g.textContent = (toString lineNumber).data)))

/-- Model of `isLineVisible` (`viewport.ts:141-204`, identically
`CMEditor.isLineVisible`): reject `lineNumber < 1` synchronously; with
no scroller report `false`; find the first non-placeholder gutter
element whose trimmed text equals `String(lineNumber)` and the first
content line within 5 pixels of its top, reporting `false` when either
is missing; then test partial or full visibility of that line. -/
def isLineVisible (env : ViewEnv) (lineNumber : Int) (partialVis : Bool) :
    Except String Bool :=
  if lineNumber < 1 then .error (lineNumErrMsg lineNumber)
  else
    .ok (match env.scroller with
      | none => false
      | some sc =>
        match env.gutters.find? (fun g =>
            !(decide (g.rect.height = (0 : ℚ) ∨ g.rect.top < (-1000 : ℚ))) &&
            (jsTrim g.textContent = (toString lineNumber).data)) with
        | none => false
        | some g =>
          match env.lines.find? (fun l => |l.top - g.rect.top| < 5) with
          | none => false
          | some l =>
            if partialVis then decide (sc.top < l.bottom ∧ l.top < sc.bottom)
            else decide (sc.top ≤ l.top ∧ l.bottom ≤ sc.bottom))

/-- Re-expansion of one closed range into the list of its line numbers. -/
def LineRange.expand (r : LineRange) : List Nat :=
  List.range' r.first (r.last + 1 - r.first)

/-- Re-expansion of a range list into the concatenated list of covered
line numbers. -/
def expandRanges : List LineRange → List Nat
  | [] => []
  | r :: rs => r.expand ++ expandRanges rs

/-- A line number lies inside some range of a range list. -/
def coveredBy (rs : List LineRange) (n : Nat) : Prop :=
  ∃ r ∈ rs, r.first ≤ n ∧ n ≤ r.last

instance (rs : List LineRange) (n : Nat) : Decidable (coveredBy rs n) := by
  unfold coveredBy; infer_instance

theorem expandRanges_toRangesGo (ys : List Nat) :
    ∀ rs re : Nat, rs ≤ re → List.Chain' (· < ·) (re :: ys) →
      expandRanges (toRangesGo rs re ys) = List.range' rs (re + 1 - rs) ++ ys := by
  induction ys with
  | nil =>
    intro rs re _ _
    simp [toRangesGo, expandRanges, LineRange.expand]
  | cons y ys ih =>
    intro rs re hle hch
    rw [List.chain'_cons] at hch
    obtain ⟨hlt, hch⟩ := hch
    simp only [toRangesGo]
    by_cases hy : y = re + 1
    · rw [if_pos hy]
      subst hy
      rw [ih rs (re + 1) (hle.trans (Nat.le_succ re)) hch]
      have h1 : re + 1 + 1 - rs = (re + 1 - rs) + 1 := by omega
      have h2 : rs + (re + 1 - rs) = re + 1 := by omega
      rw [h1, List.range'_1_concat, h2, List.append_assoc]
      rfl
    · rw [if_neg hy]
      simp only [expandRanges]
      rw [ih y y le_rfl hch]
      have h1 : y + 1 - y = 1 := by omega
      rw [h1]
      simp [LineRange.expand, List.range']

theorem toRangesGo_sorted (ys : List Nat) :
    ∀ rs re : Nat, rs ≤ re → List.Chain' (· < ·) (re :: ys) →
      (∀ r ∈ toRangesGo rs re ys, r.first ≤ r.last) ∧
      List.Chain' (fun a b => a.last + 1 < b.first) (toRangesGo rs re ys) ∧
      ∃ r rest, toRangesGo rs re ys = r :: rest ∧ r.first = rs := by
  induction ys with
  | nil =>
    intro rs re hle _
    refine ⟨?_, ?_, ⟨rs, re⟩, [], rfl, rfl⟩
    · intro r hr
      simp only [toRangesGo, List.mem_singleton] at hr
      subst hr
      exact hle
    · simp [toRangesGo]
  | cons y ys ih =>
    intro rs re hle hch
    rw [List.chain'_cons] at hch
    obtain ⟨hlt, hch⟩ := hch
    simp only [toRangesGo]
    by_cases hy : y = re + 1
    · rw [if_pos hy]
      subst hy
      exact ih rs (re + 1) (hle.trans (Nat.le_succ re)) hch
    · rw [if_neg hy]
      obtain ⟨hall, hchain, r, rest, heq, hfirst⟩ := ih y y le_rfl hch
      have hgap : re + 1 < y := Nat.lt_of_le_of_ne hlt fun h => hy h.symm
      refine ⟨?_, ?_, ⟨rs, re⟩, toRangesGo y y ys, rfl, rfl⟩
      · intro s hs
        rcases List.mem_cons.mp hs with h | h
        · subst h; exact hle
        · exact hall s h
      · rw [List.chain'_cons']
        refine ⟨?_, hchain⟩
        intro b hb
        rw [heq] at hb
        simp only [List.head?_cons, Option.mem_def, Option.some.injEq] at hb
        subst hb
        rw [hfirst]
        exact hgap

/-- C1: applied to a strictly ascending list of line numbers (the sorted
form of a duplicate-free visible-line set), `toRanges` returns ranges
that are well-formed (`first ≤ last`), sorted ascending and pairwise
non-overlapping (`a.last < b.first` for consecutive ranges), maximal
(`a.last + 1 < b.first`, so no two adjacent ranges could be merged), and
whose re-expansion reproduces the input list exactly. -/
theorem toRanges_sorted_disjoint_maximal_expand (l : List Nat)
    (h : List.Chain' (· < ·) l) :
    (∀ r ∈ toRanges l, r.first ≤ r.last) ∧
    List.Chain' (fun a b => a.last < b.first) (toRanges l) ∧
    List.Chain' (fun a b => a.last + 1 < b.first) (toRanges l) ∧
    expandRanges (toRanges l) = l := by
  cases l with
  | nil => simp [toRanges, expandRanges]
  | cons x xs =>
    obtain ⟨hall, hchain, -⟩ := toRangesGo_sorted xs x x le_rfl h
    have hexp := expandRanges_toRangesGo xs x x le_rfl h
    have h1 : x + 1 - x = 1 := by omega
    rw [h1] at hexp
    refine ⟨hall, ?_, hchain, ?_⟩
    · exact hchain.imp fun a b hab => Nat.lt_of_succ_lt hab
    · rw [toRanges, hexp]
      simp [List.range']

/-- Witness for C1 at the concrete input `[1, 2, 3, 7, 8, 12]`. -/
theorem toRanges_sorted_disjoint_maximal_expand_witness :
    (∀ r ∈ toRanges [1, 2, 3, 7, 8, 12], r.first ≤ r.last) ∧
    List.Chain' (fun a b => a.last < b.first) (toRanges [1, 2, 3, 7, 8, 12]) ∧
    List.Chain' (fun a b => a.last + 1 < b.first) (toRanges [1, 2, 3, 7, 8, 12]) ∧
    expandRanges (toRanges [1, 2, 3, 7, 8, 12]) = [1, 2, 3, 7, 8, 12] :=
  toRanges_sorted_disjoint_maximal_expand [1, 2, 3, 7, 8, 12]
    (by simp [List.chain'_cons])

theorem mem_of_coveredBy_toRangesGo (ys : List Nat) :
    ∀ rs re n : Nat, coveredBy (toRangesGo rs re ys) n →
      (rs ≤ n ∧ n ≤ re) ∨ n ∈ ys := by
  induction ys with
  | nil =>
    intro rs re n ⟨r, hr, h1, h2⟩
    simp only [toRangesGo, List.mem_singleton] at hr
    subst hr
    exact Or.inl ⟨h1, h2⟩
  | cons y ys ih =>
    intro rs re n hcov
    simp only [toRangesGo] at hcov
    by_cases hy : y = re + 1
    · rw [if_pos hy] at hcov
      subst hy
      rcases ih rs (re + 1) n hcov with ⟨h1, h2⟩ | h
      · rcases Nat.lt_or_ge n (re + 1) with h3 | h3
        · exact Or.inl ⟨h1, Nat.lt_succ_iff.mp h3⟩
        · have : n = re + 1 := Nat.le_antisymm h2 h3
          subst this
          simp
      · simp [h]
    · rw [if_neg hy] at hcov
      obtain ⟨r, hr, h1, h2⟩ := hcov
      rcases List.mem_cons.mp hr with h | h
      · subst h
        exact Or.inl ⟨h1, h2⟩
      · rcases ih y y n ⟨r, h, h1, h2⟩ with ⟨h3, h4⟩ | h3
        · have : n = y := Nat.le_antisymm h4 h3
          simp [this]
        · simp [h3]

theorem coveredBy_toRangesGo_of_between (ys : List Nat) :
    ∀ rs re n : Nat, rs ≤ n → n ≤ re → coveredBy (toRangesGo rs re ys) n := by
  induction ys with
  | nil =>
    intro rs re n h1 h2
    exact ⟨⟨rs, re⟩, by simp [toRangesGo], h1, h2⟩
  | cons y ys ih =>
    intro rs re n h1 h2
    simp only [toRangesGo]
    by_cases hy : y = re + 1
    · rw [if_pos hy]
      subst hy
      exact ih rs (re + 1) n h1 (h2.trans (Nat.le_succ re))
    · rw [if_neg hy]
      exact ⟨⟨rs, re⟩, by simp, h1, h2⟩

theorem coveredBy_toRangesGo_of_mem (ys : List Nat) :
    ∀ rs re n : Nat, rs ≤ re → n ∈ ys → coveredBy (toRangesGo rs re ys) n := by
  induction ys with
  | nil => intro rs re n _ h; simp at h
  | cons y ys ih =>
    intro rs re n hle hmem
    simp only [toRangesGo]
    rcases List.mem_cons.mp hmem with h | h
    · subst h
      by_cases hy : n = re + 1
      · rw [if_pos hy]
        subst hy
        exact coveredBy_toRangesGo_of_between ys rs (re + 1) (re + 1)
          (hle.trans (Nat.le_succ re)) le_rfl
      · rw [if_neg hy]
        obtain ⟨r, hr, h1, h2⟩ := coveredBy_toRangesGo_of_between ys n n n le_rfl le_rfl
        exact ⟨r, List.mem_cons_of_mem _ hr, h1, h2⟩
    · by_cases hy : y = re + 1
      · rw [if_pos hy]
        subst hy
        exact ih rs (re + 1) n (hle.trans (Nat.le_succ re)) h
      · rw [if_neg hy]
        obtain ⟨r, hr, h1, h2⟩ := ih y y n le_rfl h
        exact ⟨r, List.mem_cons_of_mem _ hr, h1, h2⟩

theorem mem_of_coveredBy_toRanges {l : List Nat} {n : Nat}
    (h : coveredBy (toRanges l) n) : n ∈ l := by
  cases l with
  | nil => obtain ⟨r, hr, -⟩ := h; simp [toRanges] at hr
  | cons x xs =>
    rcases mem_of_coveredBy_toRangesGo xs x x n h with ⟨h1, h2⟩ | h1
    · have : n = x := Nat.le_antisymm h2 h1
      simp [this]
    · simp [h1]

theorem coveredBy_toRanges_of_mem {l : List Nat} {n : Nat}
    (h : n ∈ l) : coveredBy (toRanges l) n := by
  cases l with
  | nil => simp at h
  | cons x xs =>
    rcases List.mem_cons.mp h with h1 | h1
    · subst h1
      exact coveredBy_toRangesGo_of_between xs n n n le_rfl le_rfl
    · exact coveredBy_toRangesGo_of_mem xs x x n le_rfl h1

theorem mem_insertSorted {a b : Nat} {l : List Nat} :
    a ∈ insertSorted b l ↔ a = b ∨ a ∈ l := by
  induction l with
  | nil => simp [insertSorted]
  | cons c cs ih =>
    simp only [insertSorted]
    by_cases h : b ≤ c
    · rw [if_pos h]; simp
    · rw [if_neg h]
      simp only [List.mem_cons, ih]
      tauto

theorem mem_sortNats {a : Nat} {l : List Nat} : a ∈ sortNats l ↔ a ∈ l := by
  induction l with
  | nil => simp [sortNats]
  | cons b bs ih =>
    simp only [sortNats, List.foldr_cons] at *
    rw [mem_insertSorted, ih]
    simp

theorem classifyLines_fst_subset_snd (sc : Rect) (m : List (Int × Nat)) :
    ∀ (lines : List Rect), (∀ l ∈ lines, 0 < l.height) →
      ∀ n : Nat, n ∈ (classifyLines sc m lines).1 → n ∈ (classifyLines sc m lines).2 := by
  intro lines
  induction lines with
  | nil => intro _ n h; simp [classifyLines] at h
  | cons l ls ih =>
    intro hpos n h
    have hl : 0 < l.height := hpos l (List.mem_cons_self l ls)
    have hih := ih fun x hx => hpos x (List.mem_cons_of_mem l hx)
    simp only [classifyLines] at h ⊢
    cases hlk : lookupLineNum m (jsRound l.top) with
    | none => rw [hlk] at h; exact hih n h
    | some k =>
      simp only [hlk] at h ⊢
      by_cases hfull : sc.top ≤ l.top ∧ l.bottom ≤ sc.bottom
      · rw [if_pos hfull] at h
        have hpart : sc.top < l.bottom ∧ l.top < sc.bottom := by
          unfold Rect.bottom at *
          constructor <;> [linarith [hfull.1]; linarith [hfull.2]]
        rw [if_pos hpart]
        rcases List.mem_cons.mp h with h1 | h1
        · simp [h1]
        · exact List.mem_cons_of_mem _ (hih n h1)
      · rw [if_neg hfull] at h
        have := hih n h
        by_cases hpart : sc.top < l.bottom ∧ l.top < sc.bottom
        · rw [if_pos hpart]; exact List.mem_cons_of_mem _ this
        · rw [if_neg hpart]; exact this

/-- C2 (amended): provided every content line's bounding box has
positive height, every line number covered by a `fullyVisible` range of
`getLinesInViewport` is covered by some `partiallyVisible` range. The
hypothesis is necessary: a zero-height line box lying exactly on the
viewport top satisfies the full-visibility predicate but not the
partial-visibility one. -/
theorem linesInViewport_fully_subset_partial (env : ViewEnv)
    (hpos : ∀ l ∈ env.lines, 0 < l.height) (n : Nat)
    (h : coveredBy (getLinesInViewport env).fullyVisible n) :
    coveredBy (getLinesInViewport env).partiallyVisible n := by
  obtain ⟨osc, lns, gts⟩ := env
  cases osc with
  | none =>
    obtain ⟨r, hr, -⟩ := h
    simp [getLinesInViewport] at hr
  | some sc =>
    simp only [getLinesInViewport] at h ⊢
    have h1 := mem_of_coveredBy_toRanges h
    rw [mem_sortNats] at h1
    have h2 := classifyLines_fst_subset_snd sc (buildGutterMap gts) lns hpos n h1
    exact coveredBy_toRanges_of_mem (mem_sortNats.mpr h2)

unseal Rat.add Rat.sub Rat.mul in
/-- Counterexample to C2 as stated: a zero-height content line whose top
coincides with the viewport top is classified fully visible (its range
list is `[⟨1, 1⟩]`) but not partially visible (empty range list), so the
fully-visible line 1 is covered by no partially-visible range. -/
theorem linesInViewport_fully_subset_partial_cex :
    coveredBy (getLinesInViewport
      ⟨some ⟨0, 100⟩, [⟨0, 0⟩], [⟨⟨0, 20⟩, ['1']⟩]⟩).fullyVisible 1 ∧
    ¬ coveredBy (getLinesInViewport
      ⟨some ⟨0, 100⟩, [⟨0, 0⟩], [⟨⟨0, 20⟩, ['1']⟩]⟩).partiallyVisible 1 := by
  decide

unseal Rat.add Rat.sub Rat.mul in
/-- Witness for C2 (amended) at a one-line viewport. -/
theorem linesInViewport_fully_subset_partial_witness :
    coveredBy (getLinesInViewport
      ⟨some ⟨0, 100⟩, [⟨0, 20⟩], [⟨⟨0, 20⟩, ['1']⟩]⟩).partiallyVisible 1 :=
  linesInViewport_fully_subset_partial
    ⟨some ⟨0, 100⟩, [⟨0, 20⟩], [⟨⟨0, 20⟩, ['1']⟩]⟩
    (by decide) 1 (by decide)

/-- Modelled from the spec (for refinement comparison only): §4.1 step 4
says a content line resolves to "the nearest recorded gutter top within a
small tolerance"; this picks, among entries within the 5-pixel
tolerance, one with the smallest distance (first on ties). The source's
`lookupLineNum` instead takes the first entry in insertion order. -/
def nearestLineNumSpec (m : List (Int × Nat)) (lineTop : Int) : Option Nat :=
  match m.filter (fun p => (lineTop - p.1).natAbs < 5) with
  | [] => none
  | p :: ps =>
    some ((ps.foldl (fun best q =>
      if (lineTop - q.1).natAbs < (lineTop - best.1).natAbs then q else best) p).2)

unseal Rat.add Rat.sub Rat.mul in
/-- Counterexample to C3 as stated: with recorded gutter entries
`0 → line 1` and `4 → line 2` and a content line whose rounded top is 4,
the lookup returns line 1 (the first entry within tolerance, distance 4)
rather than line 2 (the nearest, distance 0); the full query therefore
reports line 1 visible, not line 2. -/
theorem lookupLineNum_not_nearest_cex :
    lookupLineNum [(0, 1), (4, 2)] 4 = some 1 ∧
    nearestLineNumSpec [(0, 1), (4, 2)] 4 = some 2 ∧
    getLinesInViewport
      ⟨some ⟨0, 100⟩, [⟨4, 20⟩], [⟨⟨0, 20⟩, ['1']⟩, ⟨⟨4, 20⟩, ['2']⟩]⟩ =
      ⟨[⟨1, 1⟩], [⟨1, 1⟩]⟩ := by
  decide

/-- C3 (amended): a content line's rounded top resolves to the line
number of the first recorded gutter entry, in map insertion order, whose
rounded top is within the strict 5-pixel tolerance (not necessarily the
nearest one); when no entry is within tolerance the lookup is empty and
the content line is silently omitted from the classification, with no
error raised. -/
theorem lookupLineNum_first_match (m : List (Int × Nat)) (t : Int) :
    (lookupLineNum m t = none ↔ ∀ p ∈ m, ¬ (t - p.1).natAbs < 5) ∧
    (∀ i : Nat, ∀ hi : i < m.length,
      (t - (m.get ⟨i, hi⟩).1).natAbs < 5 →
      (∀ j : Nat, ∀ hj : j < i, ¬ (t - (m.get ⟨j, hj.trans hi⟩).1).natAbs < 5) →
      lookupLineNum m t = some (m.get ⟨i, hi⟩).2) ∧
    (∀ sc : Rect, ∀ lines : List Rect, ∀ l : Rect,
      lookupLineNum m (jsRound l.top) = none →
      classifyLines sc m (l :: lines) = classifyLines sc m lines) := by
  refine ⟨?_, ?_, ?_⟩
  · simp [lookupLineNum, List.find?_eq_none]
  · induction m with
    | nil => intro i hi; simp at hi
    | cons p ps ih =>
      intro i hi htol hbefore
      cases i with
      | zero =>
        simp only [List.get] at htol ⊢
        simp [lookupLineNum, List.find?_cons, htol]
      | succ i =>
        have hp : ¬ (t - p.1).natAbs < 5 := by
          have := hbefore 0 (Nat.succ_pos i)
          simpa using this
        simp only [List.get] at htol ⊢
        have := ih i (Nat.lt_of_succ_lt_succ hi) htol
          (fun j hj => by
            have := hbefore (j + 1) (Nat.succ_lt_succ hj)
            simpa using this)
        simp only [lookupLineNum, List.find?_cons] at this ⊢
        rw [decide_eq_false hp]
        exact this
  · intro sc lines l hnone
    simp [classifyLines, hnone]

/-- Witness for C3 (amended): the first-in-order entry within tolerance
wins at the concrete map `[(0, 1), (4, 2)]` and line top 4. -/
theorem lookupLineNum_first_match_witness :
    lookupLineNum [(0, 1), (4, 2)] 4 = some 1 :=
  (lookupLineNum_first_match [(0, 1), (4, 2)] 4).2.1 0 (by decide) (by decide)
    (fun j hj => absurd hj (Nat.not_lt_zero j))

/-- C4: whenever the precise coordinate resolver is unavailable or
raises, `scrollToLine` does not raise and sets the scroll offset by the
uniform-height fallback
`scrollTop = max(0, (targetLine - 1) * lineHeight - clientHeight * fraction + (fraction == 1 ? lineHeight : 0))`,
with `lineHeight` the height of the first rendered content line's
bounding box. -/
theorem scrollToLine_fallback (env : ScrollEnv) (n : Int)
    (position : Option PositionOption) (s : ScrollerState) (fl : Rect)
    (hs : env.scroller = some s) (hfl : s.firstLine = some fl)
    (hres : env.resolver = none ∨
      ∃ f, env.resolver = some f ∧ f n = .error ())
    (hn : 1 ≤ n) :
    scrollToLine env n position =
      .ok { env with scroller := some { s with scrollTop :=
        (max 0 (((n : ℚ) - 1) * fl.height
          - s.clientHeight * offsetFactor (position.getD .top)
          + (if offsetFactor (position.getD .top) = 1 then fl.height else 0))) } } := by
  have hn' : ¬ n < 1 := by omega
  rw [scrollToLine, if_neg hn']
  rcases hres with hres | ⟨f, hres, hferr⟩
  · simp [applyScrollToLine, hs, hres, fallbackScroll, hfl]
  · simp [applyScrollToLine, hs, hres, hferr, fallbackScroll, hfl]

/-- Witness for C4: resolver absent, scroller at `scrollTop = 50` with a
first line of height 20, scrolling to line 3 with the default position. -/
theorem scrollToLine_fallback_witness :
    scrollToLine ⟨none, some ⟨50, 10, 100, some ⟨0, 20⟩⟩⟩ 3 none =
      .ok ⟨none, some ⟨max 0 (((3 : ℚ) - 1) * 20
          - 100 * offsetFactor ((none : Option PositionOption).getD .top)
          + (if offsetFactor ((none : Option PositionOption).getD .top) = 1
             then (20 : ℚ) else 0)),
        10, 100, some ⟨0, 20⟩⟩⟩ :=
  scrollToLine_fallback ⟨none, some ⟨50, 10, 100, some ⟨0, 20⟩⟩⟩ 3 none
    ⟨50, 10, 100, some ⟨0, 20⟩⟩ ⟨0, 20⟩ rfl rfl (Or.inl rfl) (by decide)

/-- C5: when the precise path is available and returns coordinates for
the target line, `scrollToLine` adjusts the scroll offset by
`scrollTop += (lineTop - viewportTop) - clientHeight * fraction + (fraction == 1 ? lineHeight : 0)`
with `lineHeight` the difference between the resolved bottom and top;
the line-height correction is applied exactly when the fraction is 1. -/
theorem scrollToLine_precise (env : ScrollEnv) (n : Int)
    (position : Option PositionOption) (s : ScrollerState)
    (resolve : Int → Except Unit (Option Coords)) (c : Coords)
    (hs : env.scroller = some s) (hres : env.resolver = some resolve)
    (hc : resolve n = .ok (some c)) (hn : 1 ≤ n) :
    scrollToLine env n position =
      .ok { env with scroller := some { s with scrollTop :=
        (s.scrollTop + ((c.top - s.rectTop)
          - s.clientHeight * offsetFactor (position.getD .top)
          + (if offsetFactor (position.getD .top) = 1
             then c.bottom - c.top else 0))) } } ∧
    (offsetFactor (position.getD .top) ≠ 1 →
      scrollToLine env n position =
        .ok { env with scroller := some { s with scrollTop :=
          (s.scrollTop + ((c.top - s.rectTop)
            - s.clientHeight * offsetFactor (position.getD .top))) } }) := by
  have hn' : ¬ n < 1 := by omega
  constructor
  · rw [scrollToLine, if_neg hn']
    simp [applyScrollToLine, hs, hres, hc]
  · intro hne
    rw [scrollToLine, if_neg hn']
    simp [applyScrollToLine, hs, hres, hc, if_neg hne]

/-- Witness for C5: a resolver that returns coordinates `top 10`,
`bottom 22` for line 3, with the default position (fraction 0). -/
theorem scrollToLine_precise_witness :
    scrollToLine
      ⟨some (fun k => if k = 3 then .ok (some ⟨10, 22⟩) else .error ()),
        some ⟨50, 4, 100, none⟩⟩ 3 none =
      .ok ⟨some (fun k => if k = 3 then .ok (some ⟨10, 22⟩) else .error ()),
        some ⟨(50 + (((10 : ℚ) - 4)
          - 100 * offsetFactor ((none : Option PositionOption).getD .top)
          + (if offsetFactor ((none : Option PositionOption).getD .top) = 1
             then (22 : ℚ) - 10 else 0))), 4, 100, none⟩⟩ :=
  (scrollToLine_precise
    ⟨some (fun k => if k = 3 then .ok (some ⟨10, 22⟩) else .error ()),
      some ⟨50, 4, 100, none⟩⟩ 3 none ⟨50, 4, 100, none⟩
    (fun k => if k = 3 then .ok (some ⟨10, 22⟩) else .error ()) ⟨10, 22⟩
    rfl rfl rfl (by decide)).1

/-- C9: for line numbers `≥ 1`, `position: 'top'` computes the same
result as `position: 0`, `'center'` the same as `0.5`, `'bottom'` the
same as `1`; any other numeric position is used as the fraction
unchanged, and an omitted position defaults to `'top'`. -/
theorem scrollToLine_position_mapping (env : ScrollEnv) (n : Int)
    (_hn : 1 ≤ n) :
    scrollToLine env n (some .top) = scrollToLine env n (some (.frac 0)) ∧
    scrollToLine env n (some .center) =
      scrollToLine env n (some (.frac (1 / 2))) ∧
    scrollToLine env n (some .bottom) = scrollToLine env n (some (.frac 1)) ∧
    scrollToLine env n none = scrollToLine env n (some .top) ∧
    (∀ q : ℚ, offsetFactor (.frac q) = q) := by
  have hc : offsetFactor PositionOption.center =
      offsetFactor (PositionOption.frac (1 / 2)) := by
    simp [offsetFactor, Rat.divInt_eq_div]
  refine ⟨rfl, ?_, rfl, rfl, fun q => rfl⟩
  rw [scrollToLine, scrollToLine]
  simp only [Option.getD_some, hc]

/-- Witness for C9 at line 2 on a concrete environment. -/
theorem scrollToLine_position_mapping_witness :
    scrollToLine ⟨none, some ⟨50, 10, 100, some ⟨0, 20⟩⟩⟩ 2 (some .center) =
      scrollToLine ⟨none, some ⟨50, 10, 100, some ⟨0, 20⟩⟩⟩ 2
        (some (.frac (1 / 2))) :=
  (scrollToLine_position_mapping ⟨none, some ⟨50, 10, 100, some ⟨0, 20⟩⟩⟩ 2
    (by decide)).2.1

/-- C10: for a valid line number, when the editor has no scroll
container, or the precise geometry path is unavailable and no content
line is rendered at all, `scrollToLine` completes without an error and
leaves the environment (in particular the scroll position) unchanged. -/
theorem scrollToLine_silent_noop (env : ScrollEnv) (n : Int)
    (position : Option PositionOption) (hn : 1 ≤ n)
    (h : env.scroller = none ∨
      (env.resolver = none ∧
        ∃ s, env.scroller = some s ∧ s.firstLine = none)) :
    scrollToLine env n position = .ok env := by
  have hn' : ¬ n < 1 := by omega
  rw [scrollToLine, if_neg hn']
  rcases h with h | ⟨hres, s, hs, hfl⟩
  · simp [applyScrollToLine, h]
  · simp [applyScrollToLine, hs, hres, fallbackScroll, hfl]

/-- Witness for C10: no scroll container at all. -/
theorem scrollToLine_silent_noop_witness :
    scrollToLine ⟨none, none⟩ 7 none = .ok ⟨none, none⟩ :=
  scrollToLine_silent_noop ⟨none, none⟩ 7 none (by decide) (Or.inl rfl)

/-- The scroll state a caller observes after invoking `scrollToLine`: a
raised validation error leaves the scroller untouched. -/
def scrollStateAfter (env : ScrollEnv) (n : Int)
    (position : Option PositionOption) : ScrollEnv :=
  match scrollToLine env n position with
  | .ok e => e
  | .error _ => env

/-- C7: for every line number below 1, `scrollToLine`,
`scrollToLineAndLocate`, `isLineRendered` and `isLineVisible` fail — for
every environment alike, hence before any DOM reads — with the error
message naming the offending value and stating the number must be
`>= 1`, and no scroll is performed. -/
theorem line_number_validation (n : Int) (hn : n < 1) :
    (∀ env position, scrollToLine env n position = .error (lineNumErrMsg n)) ∧
    (∀ env position,
      scrollToLineAndLocate env n position = .error (lineNumErrMsg n)) ∧
    (∀ gutters, isLineRendered gutters n = .error (lineNumErrMsg n)) ∧
    (∀ env p, isLineVisible env n p = .error (lineNumErrMsg n)) ∧
    lineNumErrMsg n = "Line number must be >= 1, got " ++ toString n ∧
    (∀ env position, scrollStateAfter env n position = env) := by
  refine ⟨fun env position => ?_, fun env position => ?_, fun gutters => ?_,
    fun env p => ?_, rfl, fun env position => ?_⟩
  · rw [scrollToLine, if_pos hn]
  · rw [scrollToLineAndLocate, if_pos hn]
  · rw [isLineRendered, if_pos hn]
  · rw [isLineVisible, if_pos hn]
  · rw [scrollStateAfter, scrollToLine, if_pos hn]

/-- Witness for C7 at line numbers 0 and -1 on concrete environments. -/
theorem line_number_validation_witness :
    scrollToLine ⟨none, none⟩ 0 none =
      .error "Line number must be >= 1, got 0" ∧
    scrollToLineAndLocate ⟨⟨none, none⟩, true, [], [], true⟩ (-1) none =
      .error "Line number must be >= 1, got -1" ∧
    isLineRendered [] 0 = .error "Line number must be >= 1, got 0" ∧
    isLineVisible ⟨none, [], []⟩ 0 false =
      .error "Line number must be >= 1, got 0" ∧
    scrollStateAfter ⟨none, some ⟨50, 10, 100, none⟩⟩ 0 none =
      ⟨none, some ⟨50, 10, 100, none⟩⟩ :=
  ⟨(line_number_validation 0 (by decide)).1 ⟨none, none⟩ none,
    (line_number_validation (-1) (by decide)).2.1
      ⟨⟨none, none⟩, true, [], [], true⟩ none,
    (line_number_validation 0 (by decide)).2.2.1 [],
    (line_number_validation 0 (by decide)).2.2.2.1 ⟨none, [], []⟩ false,
    (line_number_validation 0 (by decide)).2.2.2.2.2
      ⟨none, some ⟨50, 10, 100, none⟩⟩ none⟩

/-- Counterexample to C6 as stated: on a scroll trace that never
stabilises (it alternates every frame), exhausting the frame budget
makes `waitForScrollIdle` resolve successfully — the `setTimeout` arm
calls `resolve`, not `reject` — instead of failing with an error as the
claim requires of every blocking wait. -/
theorem waitForScrollIdle_timeout_resolves_cex :
    waitForScrollIdle
      (fun i => (if i % 2 = 0 then (0 : ℚ) else 1, 0)) 10 =
      .ok IdleOutcome.timedOut := rfl

/-- C6 (amended): `waitForScrollIdle` never fails — when the maximum
duration elapses first it resolves successfully (and never hangs, the
timer bounds it) — while the gutter-appearance and element-visibility
waits of `scrollToLineAndLocate` do fail with an error naming the target
line when their timeout elapses before the awaited condition holds. -/
theorem waits_timeout_behaviour (samples : Nat → ℚ × ℚ) (b : Nat)
    (env : LocateEnv) (n : Int) (position : Option PositionOption)
    (hn : 1 ≤ n) :
    (∀ s : String, waitForScrollIdle samples b ≠ .error s) ∧
    (env.gutterWaitSucceeds = false →
      scrollToLineAndLocate env n position = .error (gutterWaitTimeoutMsg n)) ∧
    (env.gutterWaitSucceeds = true → env.lineWaitSucceeds = false →
      locateLineIndex env.gutters env.lines n ≠ -1 →
      scrollToLineAndLocate env n position = .error (lineWaitTimeoutMsg n)) := by
  have hn' : ¬ n < 1 := by omega
  refine ⟨fun s h => by simp [waitForScrollIdle] at h, ?_, ?_⟩
  · intro hg
    rw [scrollToLineAndLocate, if_neg hn', scrollToLine, if_neg hn']
    simp [hg]
  · intro hg hl hidx
    rw [scrollToLineAndLocate, if_neg hn', scrollToLine, if_neg hn']
    simp [hg, hl, hidx]

/-- Witness for C6 (amended): a failing gutter wait at line 5 errors
with the timeout message. -/
theorem waits_timeout_behaviour_witness :
    scrollToLineAndLocate ⟨⟨none, none⟩, false, [], [], true⟩ 5 none =
      .error (gutterWaitTimeoutMsg 5) :=
  (waits_timeout_behaviour (fun _ => (0, 0)) 1
    ⟨⟨none, none⟩, false, [], [], true⟩ 5 none (by decide)).2.1 rfl

/-- Modelled from the spec (for refinement comparison only): §4.4 step 3
re-runs the §4.1 correlation restricted to the target line, which
discards zero-height or far-off-screen placeholder annotations and trims
the gutter text before comparing; the source's `locateLineIndex` does
neither. -/
def locateLineIndexSpec (gutters : List GutterEl) (lines : List Rect)
    (targetLineNum : Int) : Int :=
  match gutters.find? (fun g =>
      !(decide (g.rect.height = (0 : ℚ) ∨ g.rect.top < (-1000 : ℚ))) &&
      (jsTrim g.textContent = (toString targetLineNum).data)) with
  | none => -1
  | some g =>
    match lines.findIdx? (fun lr => |lr.top - g.rect.top| < 5) with
    | none => -1
    | some i => i

unseal Rat.add Rat.sub Rat.mul in
/-- C8 evaluated at the failing input: a zero-height width-measurement
placeholder with text "42" at top −2000 precedes the real gutter entry
for line 42 at top 100, and the matching content line sits at top 100.
The source's unfiltered search matches the placeholder first, finds no
content line within tolerance of top −2000, and the call fails with
"Line 42 not found after scrolling", while the spec's placeholder-
filtered correlation locates the line at index 0. -/
theorem locateLineIndex_placeholder_divergence :
    locateLineIndex
      [⟨⟨-2000, 0⟩, ['4', '2']⟩, ⟨⟨100, 20⟩, ['4', '2']⟩]
      [⟨100, 20⟩] 42 = -1 ∧
    locateLineIndexSpec
      [⟨⟨-2000, 0⟩, ['4', '2']⟩, ⟨⟨100, 20⟩, ['4', '2']⟩]
      [⟨100, 20⟩] 42 = 0 ∧
    scrollToLineAndLocate
      ⟨⟨none, some ⟨0, 0, 100, some ⟨100, 20⟩⟩⟩, true,
        [⟨⟨-2000, 0⟩, ['4', '2']⟩, ⟨⟨100, 20⟩, ['4', '2']⟩],
        [⟨100, 20⟩], true⟩ 42 none =
      .error (lineNotFoundMsg 42) :=
  ⟨by decide, by decide, rfl⟩

end CMHelper
